import Mathlib

/-!
Verification development for the SNS repository (JeHa00/SNS).

The repository ships a React front end (src/frontend) together with the
container configuration of a backend.  The backend engine described in the
design document (GraphStore, TokenCache, CounterCache, FeedComposer,
NotificationBus, NotificationReader) is not part of the shipped source tree,
so those components are modelled here from the specification text, and each
such definition is marked `Modelled from the spec:` in its doc comment.
The front-end pages `Main` and `Login` are embedded directly from their
JavaScript source.
-/

namespace SNS

/-! ## Front end: the `Post` placeholder component

Embedded from src/frontend (the `Post` component): it takes no props and
renders a fixed block of content with a fixed info line. -/

/-- The data rendered by one `Post` placeholder component: the body text and
the three info spans (user name, time, like count) exactly as present in the
component source. -/
structure PostView where
  content : String
  userName : String
  time : String
  likes : String
deriving DecidableEq

/-- The single fixed `PostView` produced by the `Post` component; its render
function mentions no props and no state, so it is a constant. -/
def postPlaceholder : PostView :=
  { content := "아카나 사료중에서 그래스랜드와 프레이리가 있는데, 이들 사료는 고단백 사료로 프리미엄 라인에 속하는 사료입니다. 다만 가격이 조금 비싸서 어떤걸 살지 매우고민이 되는 상황입니다. 결국 원래 먹이던걸 사려고 결정을 했고 단테는 너무 식탐이 커서 그대로 기호성이 낮은 사료를 먹일 예정입니다",
    userName := "user_name",
    time := "time",
    likes := "하트 87" }

/-! ## Front end: the `Main` page

Embedded from src/frontend/src/pages/Main.js.  The component's only state is
the boolean `clickFilter` (initialised `true`).  The render output depends on
that state only through the `className` of the two filter spans; the body is
always `Search` followed by eleven `<Post />` elements. -/

/-- The parts of the `Main` page's render output that the claims are about:
the class strings of the two filter labels and the sequence of rendered
posts. -/
structure MainView where
  allFilterClass : String
  followFilterClass : String
  posts : List PostView
deriving DecidableEq

/-- Render of the `Main` component as a function of the `clickFilter` state:
`className={clickFilter ? "green pointer" : "pointer"}` on the 전체 span,
`className={clickFilter ? "pointer" : "green pointer"}` on the 팔로우 span,
and the literal sequence of eleven `<Post />` children. -/
def renderMain (clickFilter : Bool) : MainView :=
  { allFilterClass := if clickFilter then "green pointer" else "pointer",
    followFilterClass := if clickFilter then "pointer" else "green pointer",
    posts := List.replicate 11 postPlaceholder }

/-- The 전체 label's click handler `checkAllFilter`: sets `clickFilter` to
`true` regardless of the previous state. -/
def checkAllFilter (_ : Bool) : Bool := true

/-- The 팔로우 label's click handler `checkFollowFilter`: sets `clickFilter`
to `false` regardless of the previous state. -/
def checkFollowFilter (_ : Bool) : Bool := false

/-! ## Front end: the `Login` page

Embedded from src/frontend/src/pages/Login.js.  The component has no props
and no state; the two inputs carry no `value` binding and no `onChange`
handler, and the 로그인 button is wrapped in `<Link to='/main'>`.  The DOM
contents of the two inputs are therefore invisible to the render function;
we pass them as arguments to state that independence. -/

/-- The parts of the `Login` page that the claims are about: whether either
input is controlled (bound to state or a handler), the `to` targets of the
three `Link`s, and the credential payload submitted on login (`none` because
no submit or click handler reads the inputs). -/
structure LoginView where
  emailControlled : Bool
  passwordControlled : Bool
  loginLinkTo : String
  signupLinkTo : String
  resetLinkTo : String
  submittedCredentials : Option (String × String)
deriving DecidableEq

/-- Render of the `Login` component given the current DOM contents of the
email and password inputs.  The component source reads neither, so both
arguments are unused: the inputs are uncontrolled, no credential is
submitted, and the 로그인 button's surrounding `Link` targets `/main`. -/
def renderLogin (_emailContent _passwordContent : String) : LoginView :=
  { emailControlled := false,
    passwordControlled := false,
    loginLinkTo := "/main",
    signupLinkTo := "/signup",
    resetLinkTo := "/reset-password",
    submittedCredentials := none }

/-- Clicking the 로그인 button navigates to the `to` of the `Link` wrapping
it; there is no `onClick` or `onSubmit` in the component, so this is the
whole click behaviour. -/
def clickLoginTarget (emailContent passwordContent : String) : String :=
  (renderLogin emailContent passwordContent).loginLinkTo

/-- C9: for every value of `Main`'s filter state, the page renders the same
eleven identical placeholder posts; toggling the filter (including via the
two click handlers) changes only the filter labels' class strings, never the
set, content or order of the posts. -/
theorem main_filter_only_changes_classes :
    (∀ b : Bool,
      (renderMain b).posts = List.replicate 11 postPlaceholder ∧
      (renderMain b).posts = (renderMain (!b)).posts ∧
      (renderMain (checkAllFilter b)).posts = (renderMain b).posts ∧
      (renderMain (checkFollowFilter b)).posts = (renderMain b).posts) ∧
    (renderMain true).allFilterClass = "green pointer" ∧
    (renderMain false).allFilterClass = "pointer" ∧
    (renderMain true).followFilterClass = "pointer" ∧
    (renderMain false).followFilterClass = "green pointer" := by
  refine ⟨fun b => ?_, rfl, rfl, rfl, rfl⟩
  cases b <;> exact ⟨rfl, rfl, rfl, rfl⟩

/-- C10: the `Login` page's rendered output is independent of the contents
of the email and password inputs, no credential is submitted (the inputs are
uncontrolled and nothing reads them), and clicking the login button always
navigates to `/main`. -/
theorem login_ignores_credentials :
    ∀ e p e2 p2 : String,
      clickLoginTarget e p = "/main" ∧
      renderLogin e p = renderLogin e2 p2 ∧
      (renderLogin e p).submittedCredentials = none ∧
      (renderLogin e p).emailControlled = false ∧
      (renderLogin e p).passwordControlled = false := by
  intro e p e2 p2
  exact ⟨rfl, rfl, rfl, rfl, rfl⟩

/-! ## NotificationBus

Modelled from the spec: the backend implementation of the notification
engine is not in the shipped source tree (src/backend carries only its
container configuration), so `publish` and its state are taken from §4.5 of
the design document. -/

/-- Modelled from the spec: the closed set of notification kinds
`{follow, like, comment}` (§3, NotificationEvent). -/
inductive NotifKind
  | follow
  | like
  | comment
deriving DecidableEq

/-- Modelled from the spec: an ephemeral NotificationEvent
`{kind, actorId, recipientId, subjectId, timestamp}` (§3). -/
structure NotificationEvent where
  kind : NotifKind
  actorId : Nat
  recipientId : Nat
  subjectId : Nat
  timestamp : Nat
deriving DecidableEq

/-- Modelled from the spec: a persisted NotificationRecord
`{id, recipientId, kind, actorId, subjectId, timestamp, read}` (§3). -/
structure NotificationRecord where
  id : Nat
  recipientId : Nat
  kind : NotifKind
  actorId : Nat
  subjectId : Nat
  timestamp : Nat
  read : Bool
deriving DecidableEq

/-- The idempotency key of an event: `(kind, actorId, recipientId,
subjectId)` (§4.5). -/
def eventKey (e : NotificationEvent) : NotifKind × Nat × Nat × Nat :=
  (e.kind, e.actorId, e.recipientId, e.subjectId)

/-- The idempotency key carried by a materialized record. -/
def recordKey (r : NotificationRecord) : NotifKind × Nat × Nat × Nat :=
  (r.kind, r.actorId, r.recipientId, r.subjectId)

/-- Look up an account's counter in an association list of per-account
counters, defaulting to 0. -/
def getCount (l : List (Nat × Nat)) (a : Nat) : Nat :=
  match l.find? (fun p => p.1 == a) with
  | some p => p.2
  | none => 0

/-- Set an account's counter in an association list of per-account
counters, appending the key when absent. -/
def setCount : List (Nat × Nat) → Nat → Nat → List (Nat × Nat)
  | [], a, v => [(a, v)]
  | p :: l, a, v => if p.1 = a then (a, v) :: l else p :: setCount l a v

/-- Modelled from the spec: the state owned by the notification engine — the
per-recipient notification log, the next record id, and the per-account
unread counters it makes observable to CounterCache (§4.5, §4.6). -/
structure NotifState where
  records : List NotificationRecord
  nextId : Nat
  unread : List (Nat × Nat)
deriving DecidableEq

/-- Modelled from the spec: the outcome of `publish` — `accepted` or
`Deduplicated` (§4.5), plus `suppressed` for the self-notification case
("a recipient equal to the actor is suppressed — no self-notification"). -/
inductive PublishResult
  | accepted
  | deduplicated
  | suppressed
deriving DecidableEq

/-- Number of records in a log carrying a given idempotency key. -/
def countKey (l : List NotificationRecord) (k : NotifKind × Nat × Nat × Nat) : Nat :=
  l.countP (fun r => decide (recordKey r = k))

/-- Modelled from the spec: `publish(event) -> accepted | Deduplicated`
(§4.5).  A recipient equal to the actor is suppressed with no record; an
event whose idempotency key is already materialized is deduplicated,
never double-delivered; on acceptance a NotificationRecord(read=false) is
persisted and the recipient's unread counter is incremented. -/
def publish (s : NotifState) (e : NotificationEvent) : NotifState × PublishResult :=
  if e.recipientId = e.actorId then (s, .suppressed)
  else if s.records.any (fun r => decide (recordKey r = eventKey e)) then
    (s, .deduplicated)
  else
    ({ records := s.records ++
        [{ id := s.nextId, recipientId := e.recipientId, kind := e.kind,
           actorId := e.actorId, subjectId := e.subjectId,
           timestamp := e.timestamp, read := false }],
       nextId := s.nextId + 1,
       unread := setCount s.unread e.recipientId (getCount s.unread e.recipientId + 1) },
     .accepted)

/-- C1: publishing an event whose key is not yet materialized and whose
recipient differs from its actor is accepted and creates exactly one record
for that key; publishing the same event again is deduplicated and leaves the
whole state (in particular the set of NotificationRecords) unchanged. -/
theorem publish_exactly_once (s : NotifState) (e : NotificationEvent)
    (hnew : countKey s.records (eventKey e) = 0)
    (hself : e.recipientId ≠ e.actorId) :
    (publish s e).2 = .accepted ∧
    countKey (publish s e).1.records (eventKey e) = 1 ∧
    publish (publish s e).1 e = ((publish s e).1, .deduplicated) := by
  have hany : s.records.any (fun r => decide (recordKey r = eventKey e)) = false := by
    rw [List.any_eq_false]
    intro r hr
    simp only [decide_eq_true_eq]
    intro hk
    have : 0 < countKey s.records (eventKey e) :=
      List.countP_pos_iff.mpr ⟨r, hr, by simpa using hk⟩
    omega
  have hpub : publish s e =
      ({ records := s.records ++
          [{ id := s.nextId, recipientId := e.recipientId, kind := e.kind,
             actorId := e.actorId, subjectId := e.subjectId,
             timestamp := e.timestamp, read := false }],
         nextId := s.nextId + 1,
         unread := setCount s.unread e.recipientId (getCount s.unread e.recipientId + 1) },
       .accepted) := by
    unfold publish
    rw [if_neg hself, hany]
    simp
  refine ⟨by rw [hpub], ?_, ?_⟩
  · rw [hpub]
    unfold countKey at hnew ⊢
    rw [List.countP_append, hnew]
    simp [recordKey, eventKey]
  · rw [hpub]
    unfold publish
    rw [if_neg hself]
    have : (s.records ++
        [({ id := s.nextId, recipientId := e.recipientId, kind := e.kind,
            actorId := e.actorId, subjectId := e.subjectId,
            timestamp := e.timestamp, read := false } : NotificationRecord)]).any
        (fun r => decide (recordKey r = eventKey e)) = true := by
      rw [List.any_eq_true]
      refine ⟨{ id := s.nextId, recipientId := e.recipientId, kind := e.kind,
                actorId := e.actorId, subjectId := e.subjectId,
                timestamp := e.timestamp, read := false },
              List.mem_append_right _ (List.mem_singleton.mpr rfl), ?_⟩
      simp [recordKey, eventKey]
    rw [this]
    simp

/-- A concrete event with distinct actor and recipient, for witnesses. -/
def demoEvent : NotificationEvent :=
  { kind := .like, actorId := 1, recipientId := 2, subjectId := 5, timestamp := 100 }

/-- Witness for C1 at the empty state and a concrete like event. -/
theorem publish_exactly_once_witness :
    (publish ⟨[], 0, []⟩ demoEvent).2 = .accepted ∧
    countKey (publish ⟨[], 0, []⟩ demoEvent).1.records (eventKey demoEvent) = 1 ∧
    publish (publish ⟨[], 0, []⟩ demoEvent).1 demoEvent =
      ((publish ⟨[], 0, []⟩ demoEvent).1, .deduplicated) :=
  publish_exactly_once ⟨[], 0, []⟩ demoEvent (by decide) (by decide)

/-- C7: an event whose recipient equals its actor is suppressed — the state
(so in particular the record log) is unchanged and no NotificationRecord is
created for that user. -/
theorem publish_self_suppressed (s : NotifState) (e : NotificationEvent)
    (hself : e.recipientId = e.actorId) :
    publish s e = (s, .suppressed) := by
  unfold publish
  rw [if_pos hself]

/-- A concrete self-addressed event (a user liking their own post). -/
def selfEvent : NotificationEvent :=
  { kind := .like, actorId := 2, recipientId := 2, subjectId := 5, timestamp := 100 }

/-- Witness for C7: U2 likes U2's own post — no record is created. -/
theorem publish_self_suppressed_witness :
    publish ⟨[], 0, []⟩ selfEvent = (⟨[], 0, []⟩, .suppressed) :=
  publish_self_suppressed ⟨[], 0, []⟩ selfEvent (by decide)

/-! ## TokenCache

Modelled from the spec: the token store backing signup verification and
password reset (§4.2) is not in the shipped source tree; the front end only
triggers it from the reset-password page. -/

/-- Modelled from the spec: token purposes `{verify-email, reset-password}`
(§3, Token). -/
inductive TokenPurpose
  | verifyEmail
  | resetPassword
deriving DecidableEq

/-- Modelled from the spec: a Token `{value, purpose, subjectAccountId,
expiresAt, consumed}` (§3). -/
structure Token where
  value : Nat
  purpose : TokenPurpose
  subjectAccountId : Nat
  expiresAt : Nat
  consumed : Bool
deriving DecidableEq

/-- Modelled from the spec: the TokenCache state — its outstanding tokens. -/
structure TokenCacheState where
  tokens : List Token
deriving DecidableEq

/-- Modelled from the spec: the outcome of `consume(token, purpose)`:
`accountId | Expired | NotFound | AlreadyConsumed` (§4.2).  Only an `ok`
outcome gates an account-state write. -/
inductive ConsumeResult
  | ok (accountId : Nat)
  | expired
  | notFound
  | alreadyConsumed
deriving DecidableEq

/-- Modelled from the spec: `issue(purpose, accountId, ttl) -> token`
(§4.2).  The fresh random value and the current time are passed explicitly;
issuing invalidates prior outstanding tokens of the same
`(accountId, purpose)` by dropping them. -/
def issue (s : TokenCacheState) (purpose : TokenPurpose) (accountId ttl now value : Nat) :
    TokenCacheState × Token :=
  let t : Token :=
    { value := value, purpose := purpose, subjectAccountId := accountId,
      expiresAt := now + ttl, consumed := false }
  ({ tokens := (s.tokens.filter
      (fun u => !(u.subjectAccountId == accountId && u.purpose == purpose))) ++ [t] }, t)

/-- Mark the token with the given value as consumed. -/
def markConsumed (l : List Token) (v : Nat) : List Token :=
  l.map (fun u => if u.value = v then { u with consumed := true } else u)

/-- Modelled from the spec: `consume(token, purpose)` — the sole
read-and-invalidate operation (§4.2).  A missing value or a purpose mismatch
yields `NotFound` (not leaking existence); a consumed token yields
`AlreadyConsumed`; expiry is enforced lazily at consume time; otherwise the
token is atomically marked consumed and the subject account id returned. -/
def consume (s : TokenCacheState) (v : Nat) (purpose : TokenPurpose) (now : Nat) :
    TokenCacheState × ConsumeResult :=
  match s.tokens.find? (fun t => t.value == v) with
  | none => (s, .notFound)
  | some t =>
    if t.purpose ≠ purpose then (s, .notFound)
    else if t.consumed then (s, .alreadyConsumed)
    else if t.expiresAt < now then (s, .expired)
    else ({ tokens := markConsumed s.tokens v }, .ok t.subjectAccountId)

/-- Finding a token by value commutes with marking that value consumed. -/
theorem find?_markConsumed (l : List Token) (v : Nat) :
    (markConsumed l v).find? (fun t => t.value == v) =
      (l.find? (fun t => t.value == v)).map
        (fun u => if u.value = v then { u with consumed := true } else u) := by
  induction l with
  | nil => rfl
  | cons a l ih =>
    simp only [markConsumed, List.map_cons]
    by_cases h : a.value = v
    · rw [if_pos h, List.find?_cons_of_pos _ (by simp [h]),
        List.find?_cons_of_pos _ (by simp [h])]
      simp [h]
    · rw [if_neg h, List.find?_cons_of_neg _ (by simp [h]),
        List.find?_cons_of_neg _ (by simp [h])]
      exact ih

/-- Unfolding equation for `consume` when no token carries the value. -/
theorem consume_find_none (s : TokenCacheState) (v : Nat) (p : TokenPurpose) (now : Nat)
    (hfind : s.tokens.find? (fun u => u.value == v) = none) :
    consume s v p now = (s, .notFound) := by
  unfold consume
  rw [hfind]

/-- Unfolding equation for `consume` when a token carries the value. -/
theorem consume_find_some (s : TokenCacheState) (v : Nat) (p : TokenPurpose) (now : Nat)
    (t : Token) (hfind : s.tokens.find? (fun u => u.value == v) = some t) :
    consume s v p now =
      if t.purpose ≠ p then (s, .notFound)
      else if t.consumed then (s, .alreadyConsumed)
      else if t.expiresAt < now then (s, .expired)
      else ({ tokens := markConsumed s.tokens v }, .ok t.subjectAccountId) := by
  unfold consume
  rw [hfind]

/-- C2: a token consumed once can never be consumed again — after a
successful consume, every further consume of the same value yields
`AlreadyConsumed` at any later (or earlier) clock reading; and a token whose
stored state is already `consumed = true`, or whose expiry has passed, never
again yields an `ok` (so it never again gates an account-state write). -/
theorem token_single_use :
    (∀ (s s2 : TokenCacheState) (v : Nat) (p : TokenPurpose) (now a : Nat),
      consume s v p now = (s2, .ok a) →
      ∀ now2 : Nat, (consume s2 v p now2).2 = .alreadyConsumed) ∧
    (∀ (s : TokenCacheState) (v : Nat) (p : TokenPurpose) (now : Nat) (t : Token),
      s.tokens.find? (fun u => u.value == v) = some t →
      (t.consumed = true ∨ t.expiresAt < now) →
      ∀ a : Nat, (consume s v p now).2 ≠ .ok a) := by
  constructor
  · intro s s2 v p now a hc now2
    cases hfind : s.tokens.find? (fun u => u.value == v) with
    | none =>
      rw [consume_find_none s v p now hfind] at hc
      simp at hc
    | some t =>
      rw [consume_find_some s v p now t hfind] at hc
      by_cases hp : t.purpose ≠ p
      · rw [if_pos hp] at hc; simp at hc
      · rw [if_neg hp] at hc
        by_cases hcons : t.consumed
        · rw [if_pos hcons] at hc; simp at hc
        · rw [if_neg hcons] at hc
          by_cases hexp : t.expiresAt < now
          · rw [if_pos hexp] at hc; simp at hc
          · rw [if_neg hexp] at hc
            have hs2 : s2 = { tokens := markConsumed s.tokens v } :=
              (congrArg Prod.fst hc).symm
            have hv : t.value = v := by simpa using List.find?_some hfind
            have hfind2 : s2.tokens.find? (fun u => u.value == v) =
                some { t with consumed := true } := by
              rw [hs2]
              show (markConsumed s.tokens v).find? (fun u => u.value == v) = _
              rw [find?_markConsumed, hfind]
              simp [hv]
            have hpp : ¬({ t with consumed := true } : Token).purpose ≠ p := by
              simpa using hp
            rw [consume_find_some s2 v p now2 _ hfind2, if_neg hpp]
            simp
  · intro s v p now t hfind hbad a
    rw [consume_find_some s v p now t hfind]
    by_cases hp : t.purpose ≠ p
    · rw [if_pos hp]; simp
    · rw [if_neg hp]
      rcases hbad with hcons | hexp
      · rw [if_pos hcons]; simp
      · by_cases hcons : t.consumed
        · rw [if_pos hcons]; simp
        · rw [if_neg hcons, if_pos hexp]; simp

/-- A concrete fresh password-reset token for account 7, for witnesses. -/
def demoToken : Token :=
  { value := 42, purpose := .resetPassword, subjectAccountId := 7,
    expiresAt := 100, consumed := false }

/-- An already consumed copy of `demoToken`, for witnesses. -/
def demoTokenUsed : Token :=
  { value := 42, purpose := .resetPassword, subjectAccountId := 7,
    expiresAt := 100, consumed := true }

/-- Witness for C2: consuming the concrete reset token at time 50 succeeds
for account 7, a second consume at time 60 yields `AlreadyConsumed`, and a
consume of an already consumed stored token is never `ok`. -/
theorem token_single_use_witness :
    (consume { tokens := markConsumed [demoToken] 42 } 42 .resetPassword 60).2 =
      .alreadyConsumed ∧
    (consume { tokens := [demoTokenUsed] } 42 .resetPassword 60).2 ≠ .ok 7 :=
  ⟨token_single_use.1 { tokens := [demoToken] } { tokens := markConsumed [demoToken] 42 }
      42 .resetPassword 50 7 (by decide) 60,
   token_single_use.2 { tokens := [demoTokenUsed] } 42 .resetPassword 60 demoTokenUsed
      (by decide) (Or.inl (by decide)) 7⟩

/-! ## GraphStore

Modelled from the spec: the durable store of follow edges and posts (§4.1).
The shipped front end (the `FollowLists` page) only displays follower and
following lists; the store itself is not in the source tree. -/

/-- Modelled from the spec: a Post `{id, authorId, body, createdAt}` (§3). -/
structure Post where
  id : Nat
  authorId : Nat
  body : String
  createdAt : Nat
deriving DecidableEq

/-- Modelled from the spec: GraphStore holds the directed follow edges
`(followerId, followeeId)` and the post records (§2, §3). -/
structure GraphStore where
  edges : List (Nat × Nat)
  posts : List Post
deriving DecidableEq

/-- Modelled from the spec: the §7 error taxonomy as far as GraphStore edge
operations surface it (`Conflict` is swallowed as an idempotent no-op per
§4.1, so edge operations answer `ok`). -/
inductive GraphResult
  | ok
  | notFound
deriving DecidableEq

/-- Modelled from the spec: `addEdge` creates the follow edge unless it
already exists; a duplicate creation attempt is a `Conflict` swallowed as an
idempotent no-op rather than surfaced (§4.1, §3 invariants). -/
def addEdge (s : GraphStore) (follower followee : Nat) : GraphStore :=
  if (follower, followee) ∈ s.edges then s
  else { s with edges := s.edges ++ [(follower, followee)] }

/-- Modelled from the spec: `removeEdge` destroys the follow edge;
unfollowing a non-edge is a no-op, not an error (§3 invariants, §4.1). -/
def removeEdge (s : GraphStore) (follower followee : Nat) :
    GraphStore × GraphResult :=
  ({ s with edges := s.edges.filter (fun e => decide (e ≠ (follower, followee))) }, .ok)

/-- Modelled from the spec: `hasEdge` (§4.1). -/
def hasEdge (s : GraphStore) (follower followee : Nat) : Bool :=
  (follower, followee) ∈ s.edges

/-- Number of copies of a follow edge in the store. -/
def countEdge (s : GraphStore) (follower followee : Nat) : Nat :=
  s.edges.countP (fun e => decide (e = (follower, followee)))

/-- C3: under the uniqueness invariant (at most one copy of any edge, which
all edge operations preserve), following A from B twice leaves exactly one
FollowEdge (B, A); and unfollowing when no edge exists is a no-op that
answers `ok`, not an error. -/
theorem followEdge_idempotent (s : GraphStore) (A B : Nat)
    (huniq : countEdge s B A ≤ 1) :
    countEdge (addEdge (addEdge s B A) B A) B A = 1 ∧
    (hasEdge s B A = false → removeEdge s B A = (s, .ok)) := by
  constructor
  · by_cases hmem : (B, A) ∈ s.edges
    · have h1 : countEdge s B A = 1 := by
        have : 0 < countEdge s B A :=
          List.countP_pos_iff.mpr ⟨(B, A), hmem, by simp⟩
        omega
      have hadd : addEdge s B A = s := by unfold addEdge; rw [if_pos hmem]
      rw [hadd, hadd, h1]
    · have hadd : addEdge s B A = { s with edges := s.edges ++ [(B, A)] } := by
        unfold addEdge; rw [if_neg hmem]
      have hcount0 : countEdge s B A = 0 := by
        unfold countEdge
        rw [List.countP_eq_zero]
        intro e he
        simp only [decide_eq_true_eq]
        intro hbe
        exact hmem (hbe ▸ he)
      have hmem2 : (B, A) ∈ (addEdge s B A).edges := by
        rw [hadd]
        exact List.mem_append_right _ (List.mem_singleton.mpr rfl)
      have key : ∀ g : GraphStore, (B, A) ∈ g.edges → addEdge g B A = g := by
        intro g hg
        unfold addEdge
        rw [if_pos hg]
      have hadd2 : addEdge (addEdge s B A) B A = addEdge s B A := key _ hmem2
      rw [hadd2, hadd]
      unfold countEdge at hcount0 ⊢
      simp only [List.countP_append, hcount0]
      simp
  · intro hno
    have hnomem : (B, A) ∉ s.edges := by
      intro h
      simp [hasEdge, h] at hno
    unfold removeEdge
    have : s.edges.filter (fun e => decide (e ≠ (B, A))) = s.edges := by
      rw [List.filter_eq_self]
      intro e he
      simp only [ne_eq, decide_eq_true_eq]
      intro hbe
      exact hnomem (hbe ▸ he)
    rw [this]

/-- Witness for C3 on an initially empty graph: account 2 follows account 1
twice, leaving exactly one edge, and unfollowing the absent reverse edge is
an `ok` no-op. -/
theorem followEdge_idempotent_witness :
    countEdge (addEdge (addEdge ⟨[], []⟩ 1 2) 1 2) 1 2 = 1 ∧
    (hasEdge (⟨[], []⟩ : GraphStore) 1 2 = false →
      removeEdge ⟨[], []⟩ 1 2 = (⟨[], []⟩, .ok)) :=
  And.intro (followEdge_idempotent ⟨[], []⟩ 2 1 (by decide)).1
    (followEdge_idempotent ⟨[], []⟩ 2 1 (by decide)).2

/-! ## CounterCache

Modelled from the spec: the read-through cache of derived aggregates (§4.3).
The store is an association list from counter key to cached integer, plus a
log of clamped-underflow anomalies. -/

/-- Look up a counter key in the association list of cached values,
defaulting to 0. -/
def getCached (l : List (Nat × Int)) (k : Nat) : Int :=
  match l.find? (fun p => p.1 == k) with
  | some p => p.2
  | none => 0

/-- Replace (or append) a counter key's cached value. -/
def setCached : List (Nat × Int) → Nat → Int → List (Nat × Int)
  | [], k, v => [(k, v)]
  | p :: l, k, v => if p.1 = k then (k, v) :: l else p :: setCached l k v

/-- Modelled from the spec: CounterCache state — cached aggregate values
keyed by counter key, and the log of consistency anomalies (§4.3, §7). -/
structure CounterCache where
  counters : List (Nat × Int)
  anomalies : List Nat
deriving DecidableEq

/-- Read a cached counter value (§4.3). -/
def getCounter (c : CounterCache) (k : Nat) : Int :=
  getCached c.counters k

/-- Modelled from the spec: bump a counter up by one. -/
def incCounter (c : CounterCache) (k : Nat) : CounterCache :=
  { c with counters := setCached c.counters k (getCached c.counters k + 1) }

/-- Modelled from the spec: bump a counter down by one; a decrement below
zero is clamped to zero and logged as a consistency anomaly rather than
propagated as an error (§4.3, §7). -/
def decCounter (c : CounterCache) (k : Nat) : CounterCache :=
  let v := getCached c.counters k
  if v - 1 < 0 then
    { counters := setCached c.counters k 0, anomalies := c.anomalies ++ [k] }
  else
    { c with counters := setCached c.counters k (v - 1) }

/-- Reading past a head entry: the head answers when its key matches. -/
theorem getCached_cons (q : Nat × Int) (l : List (Nat × Int)) (k : Nat) :
    getCached (q :: l) k = if q.1 = k then q.2 else getCached l k := by
  by_cases h : q.1 = k
  · rw [if_pos h]
    unfold getCached
    rw [List.find?_cons_of_pos _ (by simp [h])]
  · rw [if_neg h]
    unfold getCached
    rw [List.find?_cons_of_neg _ (by simp [h])]

/-- Reading a key just set returns the value set. -/
theorem getCached_setCached (l : List (Nat × Int)) (k : Nat) (v : Int) :
    getCached (setCached l k v) k = v := by
  induction l with
  | nil => simp [getCached, setCached]
  | cons p l ih =>
    by_cases h : p.1 = k
    · simp [setCached, if_pos h, getCached_cons]
    · simp only [setCached, if_neg h]
      rw [getCached_cons, if_neg h]
      exact ih

/-- Setting a nonnegative value preserves nonnegativity of all cached
values. -/
theorem setCached_nonneg (l : List (Nat × Int)) (k : Nat) (v : Int)
    (hl : ∀ p ∈ l, 0 ≤ p.2) (hv : 0 ≤ v) :
    ∀ p ∈ setCached l k v, 0 ≤ p.2 := by
  induction l with
  | nil =>
    intro p hp
    simp only [setCached, List.mem_singleton] at hp
    simpa [hp] using hv
  | cons q l ih =>
    intro p hp
    by_cases h : q.1 = k
    · simp only [setCached, if_pos h, List.mem_cons] at hp
      rcases hp with hp | hp
      · simpa [hp] using hv
      · exact hl p (List.mem_cons_of_mem _ hp)
    · simp only [setCached, if_neg h, List.mem_cons] at hp
      rcases hp with hp | hp
      · exact hl p (hp ▸ List.mem_cons_self _ _)
      · exact ih (fun r hr => hl r (List.mem_cons_of_mem _ hr)) p hp

/-- Every cached value sits in the association list or is the default 0. -/
theorem getCached_nonneg (l : List (Nat × Int)) (k : Nat)
    (hl : ∀ p ∈ l, 0 ≤ p.2) : 0 ≤ getCached l k := by
  unfold getCached
  cases hfind : l.find? (fun p => p.1 == k) with
  | none => simp
  | some p => exact hl p (List.mem_of_find?_eq_some hfind)

/-- C6: counter values are always non-negative — starting from a state with
no negative cached value, a decrement preserves that invariant, a decrement
of a zero counter is clamped to zero and logged as an anomaly instead of
being stored negative or surfaced as an error, a decrement of a positive
counter subtracts exactly one, and an increment also preserves the
invariant. -/
theorem counters_never_negative (c : CounterCache) (k : Nat)
    (hnn : ∀ p ∈ c.counters, 0 ≤ p.2) :
    (∀ p ∈ (decCounter c k).counters, 0 ≤ p.2) ∧
    (getCounter c k = 0 →
      getCounter (decCounter c k) k = 0 ∧
      (decCounter c k).anomalies = c.anomalies ++ [k]) ∧
    (0 < getCounter c k →
      getCounter (decCounter c k) k = getCounter c k - 1) ∧
    (∀ p ∈ (incCounter c k).counters, 0 ≤ p.2) := by
  have hget : 0 ≤ getCached c.counters k := getCached_nonneg _ _ hnn
  refine ⟨?_, ?_, ?_, ?_⟩
  · intro p hp
    unfold decCounter at hp
    by_cases h : getCached c.counters k - 1 < 0
    · rw [if_pos h] at hp
      exact setCached_nonneg _ _ _ hnn le_rfl p hp
    · rw [if_neg h] at hp
      exact setCached_nonneg _ _ _ hnn (by omega) p hp
  · intro h0
    unfold getCounter at h0
    have hlt : getCached c.counters k - 1 < 0 := by omega
    unfold decCounter
    rw [if_pos hlt]
    exact ⟨by simpa [getCounter] using getCached_setCached c.counters k 0, rfl⟩
  · intro hpos
    unfold getCounter at hpos ⊢
    have hlt : ¬getCached c.counters k - 1 < 0 := by omega
    unfold decCounter
    rw [if_neg hlt]
    simpa using getCached_setCached c.counters k (getCached c.counters k - 1)
  · intro p hp
    unfold incCounter at hp
    exact setCached_nonneg _ _ _ hnn (by omega) p hp

/-- Witness for C6 at a concrete cache holding a zero likes counter: the
decrement clamps to zero, logs the anomaly, and leaves no negative value. -/
theorem counters_never_negative_witness :
    (∀ p ∈ (decCounter ⟨[(5, 0)], []⟩ 5).counters, 0 ≤ p.2) ∧
    (getCounter ⟨[(5, 0)], []⟩ 5 = 0 →
      getCounter (decCounter ⟨[(5, 0)], []⟩ 5) 5 = 0 ∧
      (decCounter (⟨[(5, 0)], []⟩ : CounterCache) 5).anomalies = [] ++ [5]) ∧
    (0 < getCounter ⟨[(5, 0)], []⟩ 5 →
      getCounter (decCounter ⟨[(5, 0)], []⟩ 5) 5 = getCounter ⟨[(5, 0)], []⟩ 5 - 1) ∧
    (∀ p ∈ (incCounter ⟨[(5, 0)], []⟩ 5).counters, 0 ≤ p.2) :=
  counters_never_negative ⟨[(5, 0)], []⟩ 5 (by decide)

/-! ## FeedComposer

Modelled from the spec: the read path that turns the follow graph into a
time-ordered paginated feed (§4.4).  The shipped `Main` page renders only
placeholders, so the composer is taken from the specification: posts are
ordered by (createdAt desc, id desc) with id as tie-break, pagination is
cursor-based on (timestamp, id), and resuming returns the posts strictly
after the cursor in that total order. -/

/-- The pagination key of a post: `(createdAt, id)` (§4.1, §4.4). -/
def postKey (p : Post) : Nat × Nat := (p.createdAt, p.id)

/-- Strict lexicographic order on pagination keys. -/
def keyLt (a b : Nat × Nat) : Prop :=
  a.1 < b.1 ∨ (a.1 = b.1 ∧ a.2 < b.2)

instance keyLt.instDecidable : DecidableRel keyLt := fun a b => by
  unfold keyLt
  exact inferInstance

/-- `keyLt` is trichotomous. -/
theorem keyLt_trichotomy (a b : Nat × Nat) : keyLt a b ∨ a = b ∨ keyLt b a := by
  unfold keyLt
  rcases Nat.lt_trichotomy a.1 b.1 with h | h | h
  · exact Or.inl (Or.inl h)
  · rcases Nat.lt_trichotomy a.2 b.2 with h2 | h2 | h2
    · exact Or.inl (Or.inr ⟨h, h2⟩)
    · refine Or.inr (Or.inl ?_)
      cases a
      cases b
      simp_all
    · exact Or.inr (Or.inr (Or.inr ⟨h.symm, h2⟩))
  · exact Or.inr (Or.inr (Or.inl h))

/-- `keyLt` is transitive. -/
theorem keyLt_trans {a b c : Nat × Nat} (h1 : keyLt a b) (h2 : keyLt b c) :
    keyLt a c := by
  unfold keyLt at *
  omega

/-- `keyLt` is irreflexive. -/
theorem keyLt_irrefl (a : Nat × Nat) : ¬keyLt a a := by
  unfold keyLt
  omega

/-- The feed ordering: `p` is placed no later than `q` when `p`'s key is
strictly greater (newer timestamp, or equal timestamp and greater id) or the
keys coincide — i.e. (createdAt desc, id desc) with id-descending
tie-break (§4.4). -/
def feedBefore (p q : Post) : Prop :=
  keyLt (postKey q) (postKey p) ∨ postKey p = postKey q

instance feedBefore.instDecidable : DecidableRel feedBefore := fun p q => by
  unfold feedBefore
  exact inferInstance

instance feedBefore.instIsTotal : IsTotal Post feedBefore :=
  ⟨fun p q => by
    rcases keyLt_trichotomy (postKey p) (postKey q) with h | h | h
    · exact Or.inr (Or.inl h)
    · exact Or.inl (Or.inr h)
    · exact Or.inl (Or.inl h)⟩

instance feedBefore.instIsTrans : IsTrans Post feedBefore :=
  ⟨fun p q r hpq hqr => by
    unfold feedBefore at *
    rcases hpq with h1 | h1 <;> rcases hqr with h2 | h2
    · exact Or.inl (keyLt_trans h2 h1)
    · exact Or.inl (h2 ▸ h1)
    · exact Or.inl (h1 ▸ h2)
    · exact Or.inr (h1.trans h2)⟩

/-- Modelled from the spec: resolve the viewer's following set from the
follow edges (§4.4, step one of `scope=following`). -/
def followees (s : GraphStore) (viewer : Nat) : List Nat :=
  (s.edges.filter (fun e => e.1 == viewer)).map (fun e => e.2)

/-- Modelled from the spec: the posts of the viewer's followees — the
source stream merged for `scope=following` (§4.4). -/
def candidatePosts (s : GraphStore) (viewer : Nat) : List Post :=
  s.posts.filter (fun p => decide (p.authorId ∈ followees s viewer))

/-- Modelled from the spec: feed scope `{all, following}` (§4.4). -/
inductive FeedScope
  | all
  | following
deriving DecidableEq

/-- The post stream a scope draws from: the global index for `all`, the
followees' posts for `following` (§4.4). -/
def feedSource (s : GraphStore) (viewer : Nat) : FeedScope → List Post
  | .all => s.posts
  | .following => candidatePosts s viewer

/-- Resume after a cursor: keep exactly the posts strictly after the cursor
key in the descending order, i.e. with strictly smaller (createdAt, id). -/
def applyCursor (cursor : Option (Nat × Nat)) (l : List Post) : List Post :=
  match cursor with
  | none => l
  | some c => l.filter (fun p => decide (keyLt (postKey p) c))

/-- Modelled from the spec: `composeFeed(viewerId, scope, cursor, limit)` —
order the scope's post stream by (createdAt desc, id desc), resume from the
cursor, and yield at most `limit` posts (§4.4). -/
def composeFeed (s : GraphStore) (viewer : Nat) (scope : FeedScope)
    (cursor : Option (Nat × Nat)) (limit : Nat) : List Post :=
  (applyCursor cursor (List.insertionSort feedBefore (feedSource s viewer scope))).take limit

/-- Every page `composeFeed` yields is sorted in the feed ordering. -/
theorem composeFeed_sorted (s : GraphStore) (viewer : Nat) (scope : FeedScope)
    (cursor : Option (Nat × Nat)) (limit : Nat) :
    List.Sorted feedBefore (composeFeed s viewer scope cursor limit) := by
  have hs : List.Sorted feedBefore
      (List.insertionSort feedBefore (feedSource s viewer scope)) :=
    List.sorted_insertionSort feedBefore _
  have hc : List.Sorted feedBefore
      (applyCursor cursor (List.insertionSort feedBefore (feedSource s viewer scope))) := by
    cases cursor with
    | none => exact hs
    | some c => exact hs.filter _
  exact List.Pairwise.sublist (List.take_sublist _ _) hc

/-- U2's post "hello" at t=10 from the specification scenario. -/
def demoPostHello : Post :=
  { id := 100, authorId := 2, body := "hello", createdAt := 10 }

/-- U3's post "hi" at t=11 from the specification scenario. -/
def demoPostHi : Post :=
  { id := 101, authorId := 3, body := "hi", createdAt := 11 }

/-- The graph of the specification scenario: U1 follows U2 and U3, and the
two posts above exist. -/
def demoStore : GraphStore :=
  { edges := [(1, 2), (1, 3)], posts := [demoPostHello, demoPostHi] }

/-- C4: `composeFeed` output carries the total order (createdAt descending,
id descending as tie-break) — every composed page is sorted in the feed
ordering — and on the concrete scenario (U1 follows U2 and U3, U2 posted
"hello" at t=10, U3 posted "hi" at t=11) the first page for U1 is
[U3:"hi", U2:"hello"] in that order. -/
theorem composeFeed_ordered :
    (∀ (s : GraphStore) (viewer : Nat) (scope : FeedScope)
      (cursor : Option (Nat × Nat)) (limit : Nat),
      List.Sorted feedBefore (composeFeed s viewer scope cursor limit)) ∧
    composeFeed demoStore 1 .following none 10 = [demoPostHi, demoPostHello] := by
  constructor
  · exact composeFeed_sorted
  · rfl

/-- Insertion of freshly created posts into the store (the GraphStore write
that happens between two pages of a paginated read). -/
def insertPosts (s : GraphStore) (ps : List Post) : GraphStore :=
  { s with posts := s.posts ++ ps }

/-- In a pairwise-related list, every element is related to the last element
or is the last element. -/
theorem pairwise_rel_getLast {α : Type} {r : α → α → Prop} :
    ∀ {l : List α} {a : α}, l.Pairwise r → l.getLast? = some a →
      ∀ x ∈ l, r x a ∨ x = a := by
  intro l
  induction l with
  | nil =>
    intro a _ h
    simp at h
  | cons b t ih =>
    intro a hp hl x hx
    cases t with
    | nil =>
      simp only [List.getLast?_singleton, Option.some.injEq] at hl
      simp only [List.mem_singleton] at hx
      exact Or.inr (hx.trans hl)
    | cons c2 t2 =>
      rw [List.getLast?_cons_cons] at hl
      rcases List.mem_cons.mp hx with hxb | hxt
      · refine Or.inl ?_
        have hmem : a ∈ c2 :: t2 := List.mem_of_getLast?_eq_some hl
        exact hxb ▸ (List.pairwise_cons.mp hp).1 a hmem
      · exact ih (List.pairwise_cons.mp hp).2 hl x hxt

/-- Adding posts leaves the follow graph alone, so the candidate stream of
the enlarged store is the old stream extended with the new followee
posts. -/
theorem candidatePosts_insertPosts (s : GraphStore) (viewer : Nat) (ps : List Post) :
    candidatePosts (insertPosts s ps) viewer =
      candidatePosts s viewer ++
        ps.filter (fun p => decide (p.authorId ∈ followees s viewer)) := by
  unfold candidatePosts insertPosts followees
  exact List.filter_append _ _

/-- C5: pagination is stable under insertion.  Compose the first page,
record the key of its last post as cursor, insert new posts, and resume from
that cursor with a large enough limit: the resumed page repeats no post of
the first page, and skips no post — every remaining post of the original
feed (those ranked after the first page) appears in the resumed page.
Hypotheses: the first page is nonempty (it has a last post), pagination keys
are unambiguous across the enlarged candidate stream, and the resume limit
covers the remaining stream. -/
theorem pagination_stable (s : GraphStore) (viewer : Nat) (limit1 limit2 : Nat)
    (newPosts : List Post) (lastP : Post)
    (hlast : (composeFeed s viewer .following none limit1).getLast? = some lastP)
    (hkeys : ((candidatePosts (insertPosts s newPosts) viewer).map postKey).Nodup)
    (hbig : (applyCursor (some (postKey lastP))
        (List.insertionSort feedBefore
          (candidatePosts (insertPosts s newPosts) viewer))).length ≤ limit2) :
    (∀ x ∈ composeFeed (insertPosts s newPosts) viewer .following
        (some (postKey lastP)) limit2,
      x ∉ composeFeed s viewer .following none limit1) ∧
    (∀ x ∈ (List.insertionSort feedBefore (candidatePosts s viewer)).drop limit1,
      x ∈ composeFeed (insertPosts s newPosts) viewer .following
        (some (postKey lastP)) limit2) := by
  set olds := List.insertionSort feedBefore (candidatePosts s viewer) with holds
  have hpage1 : composeFeed s viewer .following none limit1 = olds.take limit1 := rfl
  have hsorted : List.Sorted feedBefore olds := List.sorted_insertionSort feedBefore _
  have hsplit : olds.take limit1 ++ olds.drop limit1 = olds := List.take_append_drop _ _
  have hkeys_olds : (olds.map postKey).Nodup := by
    have hperm : List.Perm olds (candidatePosts s viewer) :=
      List.perm_insertionSort feedBefore _
    have hleft : ((candidatePosts s viewer).map postKey).Nodup := by
      have : ((candidatePosts s viewer).map postKey ++
          (newPosts.filter (fun p => decide (p.authorId ∈ followees s viewer))).map
            postKey).Nodup := by
        rw [← List.map_append, ← candidatePosts_insertPosts]
        exact hkeys
      exact this.of_append_left
    exact ((hperm.map postKey).nodup_iff).mpr hleft
  have hnodup_olds : olds.Nodup := hkeys_olds.of_map postKey
  have hlastmem : lastP ∈ olds.take limit1 :=
    List.mem_of_getLast?_eq_some (hpage1 ▸ hlast)
  have hsorted_page1 : List.Pairwise feedBefore (olds.take limit1) :=
    List.Pairwise.sublist (List.take_sublist _ _) hsorted
  have hcross : ∀ a ∈ olds.take limit1, ∀ b ∈ olds.drop limit1, feedBefore a b := by
    have := hsplit ▸ hsorted
    exact (List.pairwise_append.mp this).2.2
  have hdisj : List.Disjoint (olds.take limit1) (olds.drop limit1) :=
    List.disjoint_of_nodup_append (by rw [hsplit]; exact hnodup_olds)
  have hpage2 : composeFeed (insertPosts s newPosts) viewer .following
      (some (postKey lastP)) limit2 =
      applyCursor (some (postKey lastP))
        (List.insertionSort feedBefore (candidatePosts (insertPosts s newPosts) viewer)) := by
    unfold composeFeed
    exact List.take_of_length_le hbig
  constructor
  · intro x hx2 hx1
    rw [hpage2] at hx2
    have hklt : keyLt (postKey x) (postKey lastP) := by
      have := (List.mem_filter.mp hx2).2
      simpa using this
    rw [hpage1] at hx1
    rcases pairwise_rel_getLast hsorted_page1 (hpage1 ▸ hlast) x hx1 with hrel | hxeq
    · rcases hrel with hgt | heq
      · exact keyLt_irrefl _ (keyLt_trans hklt hgt)
      · exact keyLt_irrefl _ (heq ▸ hklt)
    · rw [hxeq] at hklt
      exact keyLt_irrefl _ hklt
  · intro x hxrest
    have hx_olds : x ∈ olds := List.mem_of_mem_drop hxrest
    have hrel : feedBefore lastP x := hcross lastP hlastmem x hxrest
    have hklt : keyLt (postKey x) (postKey lastP) := by
      rcases hrel with hgt | heq
      · exact hgt
      · exfalso
        have hinj := List.inj_on_of_nodup_map hkeys_olds
        have hxl : lastP = x :=
          hinj (List.mem_of_mem_take hlastmem) hx_olds heq
        exact hdisj (hxl ▸ hlastmem) hxrest
    have hx_cand2 : x ∈ candidatePosts (insertPosts s newPosts) viewer := by
      rw [candidatePosts_insertPosts]
      have hx_cand : x ∈ candidatePosts s viewer :=
        (List.perm_insertionSort feedBefore _).subset hx_olds
      exact List.mem_append_left _ hx_cand
    rw [hpage2]
    refine List.mem_filter.mpr ⟨?_, by simpa using hklt⟩
    exact (List.mem_insertionSort feedBefore).mpr hx_cand2

/-- A new post inserted between the two pages of the C5 witness scenario. -/
def demoNewPost : Post :=
  { id := 102, authorId := 2, body := "later", createdAt := 12 }

/-- Witness for C5 on the concrete scenario store: page one of size one ends
at U3:"hi"; inserting a newer U2 post and resuming from the recorded cursor
repeats nothing from page one and still yields the remaining old post. -/
theorem pagination_stable_witness :
    (∀ x ∈ composeFeed (insertPosts demoStore [demoNewPost]) 1 .following
        (some (postKey demoPostHi)) 10,
      x ∉ composeFeed demoStore 1 .following none 1) ∧
    (∀ x ∈ (List.insertionSort feedBefore (candidatePosts demoStore 1)).drop 1,
      x ∈ composeFeed (insertPosts demoStore [demoNewPost]) 1 .following
        (some (postKey demoPostHi)) 10) :=
  pagination_stable demoStore 1 1 10 [demoNewPost] demoPostHi
    (by decide) (by decide) (by decide)

/-! ## NotificationReader

Modelled from the spec: the read path over the notification log and the
mark-as-read transition (§4.6).  The shipped `Header` component only renders
the notification bell icon; the reader itself is not in the source tree. -/

/-- Modelled from the spec: the target of `markRead(accountId,
notificationId|all)` (§4.6). -/
inductive MarkTarget
  | all
  | one (id : Nat)
deriving DecidableEq

/-- Modelled from the spec: the outcome of `markRead` — the count of records
updated, `Forbidden` for a record of a different account (§4.6), `NotFound`
for a missing record id (§7). -/
inductive MarkResult
  | ok (updated : Nat)
  | notFound
  | forbidden
deriving DecidableEq

/-- Mark every record of a recipient read (monotonic false→true). -/
def markRecipientRead (l : List NotificationRecord) (a : Nat) :
    List NotificationRecord :=
  l.map (fun r => if r.recipientId = a then { r with read := true } else r)

/-- Mark one record (by id) read. -/
def markOneRead (l : List NotificationRecord) (nid : Nat) :
    List NotificationRecord :=
  l.map (fun r => if r.id = nid then { r with read := true } else r)

/-- Number of unread records of a recipient in a log. -/
def countUnread (l : List NotificationRecord) (a : Nat) : Nat :=
  l.countP (fun r => r.recipientId == a && !r.read)

/-- Modelled from the spec: `getUnreadCount(accountId)` — the cached unread
counter the bus maintains for CounterCache (§4.3, §4.5). -/
def getUnreadCount (s : NotifState) (a : Nat) : Nat :=
  getCount s.unread a

/-- Modelled from the spec: `markRead(accountId, notificationId|all) ->
count updated` (§4.6).  Marking is idempotent — an already-read record is a
no-op, not an error — and the unread counter is decremented by exactly the
number of records transitioned false→true in this call; a record of another
account is rejected as `Forbidden`. -/
def markRead (s : NotifState) (a : Nat) : MarkTarget → NotifState × MarkResult
  | .all =>
    let k := countUnread s.records a
    ({ records := markRecipientRead s.records a,
       nextId := s.nextId,
       unread := setCount s.unread a (getCount s.unread a - k) }, .ok k)
  | .one nid =>
    match s.records.find? (fun r => r.id == nid) with
    | none => (s, .notFound)
    | some r =>
      if r.recipientId ≠ a then (s, .forbidden)
      else if r.read then (s, .ok 0)
      else ({ records := markOneRead s.records nid,
              nextId := s.nextId,
              unread := setCount s.unread a (getCount s.unread a - 1) }, .ok 1)

/-- Modelled from the spec: `listNotifications(accountId, cursor, limit)` —
the recipient's records, restartable from an id cursor, at most `limit` of
them (§4.6). -/
def listNotifications (s : NotifState) (a : Nat) (cursor : Option Nat)
    (limit : Nat) : List NotificationRecord :=
  ((s.records.filter (fun r => r.recipientId == a)).filter
    (fun r => match cursor with
      | none => true
      | some cid => decide (r.id < cid))).take limit

/-- Reading past a head entry of the unread-counter association list. -/
theorem getCount_cons (q : Nat × Nat) (l : List (Nat × Nat)) (a : Nat) :
    getCount (q :: l) a = if q.1 = a then q.2 else getCount l a := by
  by_cases h : q.1 = a
  · rw [if_pos h]
    unfold getCount
    rw [List.find?_cons_of_pos _ (by simp [h])]
  · rw [if_neg h]
    unfold getCount
    rw [List.find?_cons_of_neg _ (by simp [h])]

/-- Reading a counter just set returns the value set. -/
theorem getCount_setCount (l : List (Nat × Nat)) (a v : Nat) :
    getCount (setCount l a v) a = v := by
  induction l with
  | nil => simp [getCount, setCount]
  | cons p l ih =>
    by_cases h : p.1 = a
    · simp [setCount, if_pos h, getCount_cons]
    · simp only [setCount, if_neg h]
      rw [getCount_cons, if_neg h]
      exact ih

/-- Setting the same counter twice keeps only the second value. -/
theorem setCount_setCount (l : List (Nat × Nat)) (a v w : Nat) :
    setCount (setCount l a v) a w = setCount l a w := by
  induction l with
  | nil => simp [setCount]
  | cons p l ih =>
    by_cases h : p.1 = a
    · simp [setCount, if_pos h]
    · simp only [setCount, if_neg h]
      rw [ih]

/-- After marking a recipient's records read, the recipient has no unread
record left. -/
theorem countUnread_markRecipientRead (l : List NotificationRecord) (a : Nat) :
    countUnread (markRecipientRead l a) a = 0 := by
  unfold countUnread markRecipientRead
  rw [List.countP_eq_zero]
  intro r hr
  rcases List.mem_map.mp hr with ⟨r0, _, hfr⟩
  by_cases h : r0.recipientId = a
  · rw [if_pos h] at hfr
    rw [← hfr]
    simp
  · rw [if_neg h] at hfr
    rw [← hfr]
    simp [h]

/-- Marking a recipient's records read twice is the same as once. -/
theorem markRecipientRead_idem (l : List NotificationRecord) (a : Nat) :
    markRecipientRead (markRecipientRead l a) a = markRecipientRead l a := by
  induction l with
  | nil => rfl
  | cons r t ih =>
    unfold markRecipientRead at *
    simp only [List.map_cons, List.cons.injEq]
    refine ⟨?_, ih⟩
    by_cases h : r.recipientId = a
    · simp [h]
    · simp [h]

/-- C8: `markRead` is idempotent and exact.  Under the consistency invariant
that the cached unread counter equals the number of unread records (which
`publish` and `markRead` maintain), `markRead(a, all)` reports exactly the
number of records it transitioned false→true, repeating it is a no-op that
reports 0 and decrements nothing further, afterwards `getUnreadCount` is 0
and `listNotifications` returns zero unread records; and `markRead` of a
single already-read record owned by the account is a no-op `ok 0`, not an
error. -/
theorem markRead_idempotent_exact (s : NotifState) (a : Nat)
    (hconsist : getUnreadCount s a = countUnread s.records a) :
    (markRead s a .all).2 = .ok (countUnread s.records a) ∧
    markRead (markRead s a .all).1 a .all = ((markRead s a .all).1, .ok 0) ∧
    getUnreadCount (markRead s a .all).1 a = 0 ∧
    (∀ cursor limit,
      ∀ r ∈ listNotifications (markRead s a .all).1 a cursor limit,
        r.read = true) ∧
    (∀ nid r, s.records.find? (fun u => u.id == nid) = some r →
      r.recipientId = a → r.read = true → markRead s a (.one nid) = (s, .ok 0)) := by
  refine ⟨rfl, ?_, ?_, ?_, ?_⟩
  · show markRead
      ({ records := markRecipientRead s.records a,
         nextId := s.nextId,
         unread := setCount s.unread a
           (getCount s.unread a - countUnread s.records a) } : NotifState) a .all = _
    unfold markRead
    simp only [countUnread_markRecipientRead, markRecipientRead_idem,
      Nat.sub_zero, getCount_setCount, setCount_setCount]
  · show getUnreadCount
      ({ records := markRecipientRead s.records a,
         nextId := s.nextId,
         unread := setCount s.unread a
           (getCount s.unread a - countUnread s.records a) } : NotifState) a = 0
    unfold getUnreadCount at hconsist ⊢
    rw [getCount_setCount, hconsist]
    omega
  · intro cursor limit r hr
    have hr2 : r ∈ markRecipientRead s.records a ∧ (r.recipientId == a) = true := by
      have h1 := List.mem_of_mem_take hr
      have h2 := List.mem_filter.mp (List.mem_filter.mp h1).1
      exact ⟨h2.1, h2.2⟩
    rcases List.mem_map.mp hr2.1 with ⟨r0, _, hfr⟩
    by_cases h : r0.recipientId = a
    · rw [if_pos h] at hfr
      rw [← hfr]
    · rw [if_neg h] at hfr
      exact absurd (by simpa using hr2.2) (hfr ▸ h)
  · intro nid r hfind hown hread
    unfold markRead
    dsimp only
    rw [hfind]
    dsimp only
    rw [if_neg (fun h => h hown), if_pos hread]

/-- A concrete notification state for the C8 witness: one unread and one
read record for account 2, with a consistent unread counter of 1. -/
def demoNotifState : NotifState :=
  { records :=
      [{ id := 0, recipientId := 2, kind := .like, actorId := 1, subjectId := 5,
         timestamp := 100, read := false },
       { id := 1, recipientId := 2, kind := .follow, actorId := 3, subjectId := 2,
         timestamp := 101, read := true }],
    nextId := 2,
    unread := [(2, 1)] }

/-- Witness for C8 at the concrete state: marking all reports 1, repeating
reports 0 and changes nothing, the unread counter reads 0, the listed
records are all read, and re-marking the already-read record 1 is `ok 0`. -/
theorem markRead_idempotent_exact_witness :
    (markRead demoNotifState 2 .all).2 = .ok (countUnread demoNotifState.records 2) ∧
    markRead (markRead demoNotifState 2 .all).1 2 .all =
      ((markRead demoNotifState 2 .all).1, .ok 0) ∧
    getUnreadCount (markRead demoNotifState 2 .all).1 2 = 0 ∧
    (∀ cursor limit,
      ∀ r ∈ listNotifications (markRead demoNotifState 2 .all).1 2 cursor limit,
        r.read = true) ∧
    (∀ nid r, demoNotifState.records.find? (fun u => u.id == nid) = some r →
      r.recipientId = 2 → r.read = true →
        markRead demoNotifState 2 (.one nid) = (demoNotifState, .ok 0)) :=
  markRead_idempotent_exact demoNotifState 2 (by decide)

end SNS
